import Mathlib

/-!
# goexpert-client-server-api: the quote pipeline

A shallow embedding of the two Go programs of the repository:

* `restserver/server.go` (the Origin Service): `handler`, `doAPICall`,
  `parseAPIResponse`, `writeData`, `httpErrorResponse`;
* `restclient/client.go` (the Fetch Client): `fetchAndSaveData`,
  `makeGetRequest`, `doRequest`, `writeDataToFile`.

Everything the programs obtain from outside (the HTTP transport, the state of a
context when it is inspected, the database driver, the file system) is read from
an explicit environment `Env`, so each Go function becomes a pure function of
the environment and of the state it is handed.  The library routines whose
result decides what the programs answer are modelled concretely:

* `strconv.ParseFloat` on plain decimal literals and the shortest formatting
  of a binary64 (namespace `Strconv`), both exact;
* the decoding done by `encoding/json` into the struct `Exchange` and into a
  `map[string]string`, on a JSON document given as a syntax tree
  (namespace `Json`).
-/

set_option autoImplicit false

/-! ## strconv: binary64 values, parsing and shortest formatting -/

namespace Strconv

/-- A Go `float64`.  `finite neg m e` is the number `(-1)^neg * m * 2^e` with
`m < 2^53` and `-1074 ≤ e ≤ 971`, normalised so that `2^52 ≤ m` unless
`e = -1074`. -/
inductive Float64
  | finite (neg : Bool) (mant : Nat) (exp : Int)
  | inf (neg : Bool)
  | nan
deriving DecidableEq

/-- The zero value of a `float64` field. -/
def Float64.zero : Float64 := Float64.finite false 0 (-1074)

/-- The power `2^e` as a fraction `(numerator, denominator)`. -/
def pow2 (e : Int) : Nat × Nat :=
  match e with
  | Int.ofNat k => (2 ^ k, 1)
  | Int.negSucc k => (1, 2 ^ (k + 1))

/-- The power `10^e` as a fraction `(numerator, denominator)`. -/
def pow10 (e : Int) : Nat × Nat :=
  match e with
  | Int.ofNat k => (10 ^ k, 1)
  | Int.negSucc k => (1, 10 ^ (k + 1))

/-- Round `num / den` to the nearest integer, ties to the even one. -/
def roundHalfEven (num den : Nat) : Nat :=
  let q := num / den
  let r := num % den
  if 2 * r < den then q
  else if den < 2 * r then q + 1
  else if q % 2 = 0 then q else q + 1

/-- Number of binary digits, by halving at most `fuel` times. -/
def bitLenAux : Nat → Nat → Nat
  | 0, _ => 0
  | fuel + 1, n => if n = 0 then 0 else bitLenAux fuel (n / 2) + 1

/-- Number of binary digits of `n` (`0` for `0`). -/
def bitLen (n : Nat) : Nat := bitLenAux n n

/-- IEEE 754 round-to-nearest-even of the non-negative rational `num / den`
to binary64, as mantissa and exponent; `none` when the result overflows the
largest finite value `(2^53 - 1) * 2^971`.  Values below the smallest
subnormal round to zero. -/
def roundToBinary64 (num den : Nat) : Option (Nat × Int) :=
  if num = 0 then some (0, -1074)
  else
    let e1 : Int := (bitLen num : Int) - (bitLen den : Int) - 53
    let p1 := pow2 e1
    let e2 : Int := if num * p1.2 / (den * p1.1) < 2 ^ 53 then e1 else e1 + 1
    let e : Int := if e2 < -1074 then -1074 else e2
    let p := pow2 e
    let m := roundHalfEven (num * p.2) (den * p.1)
    let r : Nat × Int := if m = 2 ^ 53 then (2 ^ 52, e + 1) else (m, e)
    if 971 < r.2 then none else some r

/-- An ASCII decimal digit. -/
def isDigit (c : Char) : Bool := decide (48 ≤ c.toNat) && decide (c.toNat ≤ 57)

/-- The value of an ASCII decimal digit. -/
def digitVal (c : Char) : Nat := c.toNat - 48

/-- The digit loop of `readFloat` in base ten: digits with at most one point.
Returns the digits read as one integer and the number of digits after the
point; `none` on a second point, on any other character, or when no digit was
seen. -/
def scanMantissa : List Char → Bool → Nat → Nat → Nat → Option (Nat × Nat)
  | [], _, mant, nd, nfrac => if nd = 0 then none else some (mant, nfrac)
  | c :: cs, sawdot, mant, nd, nfrac =>
    if c = '.' then
      if sawdot then none else scanMantissa cs true mant nd nfrac
    else if isDigit c then
      scanMantissa cs sawdot (10 * mant + digitVal c) (nd + 1) (if sawdot then nfrac + 1 else nfrac)
    else none

/-- A plain decimal literal as `strconv.ParseFloat` reads it: an optional sign,
then digits with an optional point and at least one digit, nothing else.
Returns `(negative, digits as an integer, digits after the point)`, so the
literal denotes `± digits / 10^k`. -/
def readDecimal (cs : List Char) : Option (Bool × Nat × Nat) :=
  match cs with
  | [] => none
  | c :: rest =>
    if c = '+' then (scanMantissa rest false 0 0 0).map (fun r => (false, r.1, r.2))
    else if c = '-' then (scanMantissa rest false 0 0 0).map (fun r => (true, r.1, r.2))
    else (scanMantissa cs false 0 0 0).map (fun r => (false, r.1, r.2))

/-- The `float64` that `strconv.ParseFloat(s, 64)` returns for a plain decimal
literal: the nearest binary64; `none` for a string that is not a plain decimal
literal and for a value out of range. -/
def decimalToFloat64 (cs : List Char) : Option Float64 :=
  match readDecimal cs with
  | none => none
  | some (neg, d, k) =>
    match roundToBinary64 d (10 ^ k) with
    | none => none
    | some (m, e) => some (Float64.finite neg m e)

/-- The function `strconv.ParseFloat(s, 64)`, `none` for an error.  Plain
decimal literals are converted exactly; every other accepted form (exponents,
hexadecimal mantissas, digit separators, infinities) is left to `ext`, the
behaviour of the library on those strings. -/
def parseFloat (ext : String → Option Float64) (s : String) : Option Float64 :=
  match readDecimal s.toList with
  | some _ => decimalToFloat64 s.toList
  | none => ext s

/-- The function `strconv.ParseInt(s, 10, 64)`, `none` for an error: an
optional sign, then decimal digits only, within the range of `int64`. -/
def parseInt (cs : List Char) : Option Int :=
  let digits (ds : List Char) : Option Nat :=
    if ds.isEmpty || !ds.all isDigit then none
    else some (ds.foldl (fun a c => 10 * a + digitVal c) 0)
  match cs with
  | [] => none
  | c :: rest =>
    if c = '-' then
      match digits rest with
      | some n => if n ≤ 2 ^ 63 then some (-(n : Int)) else none
      | none => none
    else
      match digits (if c = '+' then rest else cs) with
      | some n => if n < 2 ^ 63 then some (n : Int) else none
      | none => none

/-- Decimal digits of `n`, most significant first, by dividing at most `fuel`
times. -/
def digitsAux : Nat → Nat → List Nat → List Nat
  | 0, _, acc => acc
  | fuel + 1, n, acc => if n = 0 then acc else digitsAux fuel (n / 10) (n % 10 :: acc)

/-- Decimal digits of `n`, most significant first (none for zero). -/
def digitsOf (n : Nat) : List Nat := digitsAux n n []

/-- For `num / den < 1`: the number of zeros between the point and the first
non-zero digit, searched upwards from `k`. -/
def leadingZeros : Nat → Nat → Nat → Nat → Nat
  | 0, _, _, k => k
  | fuel + 1, num, den, k =>
    if den ≤ num * 10 ^ (k + 1) then k else leadingZeros fuel num den (k + 1)

/-- The position `dp` of the decimal point of a positive rational:
`10^(dp-1) ≤ num / den < 10^dp`. -/
def decimalPoint (num den : Nat) : Int :=
  if den ≤ num then ((digitsOf (num / den)).length : Int)
  else - (leadingZeros 400 num den 0 : Int)

/-- Remove the zeros at the end of a digit string. -/
def dropTrailingZeros (ds : List Nat) : List Nat :=
  (ds.reverse.dropWhile (fun d => d == 0)).reverse

/-- A decimal floating-point number: the value `0.d1 d2 ... dn * 10^dp`. -/
structure Decimal where
  digits : List Nat
  dp : Int
deriving DecidableEq

/-- The digit walk of the shortest formatting.  `fn / fd` is the value,
`ln / ld` and `un / ud` the halfway points to the neighbouring binary64 values,
reachable themselves only when `inclusive`.  With `n` digits kept, `lo` is the
value truncated and `hi` the next `n`-digit number; the walk stops at the
first `n` for which one of them lies within the bounds, and takes the nearer
one when both do (ties to the even digit). -/
def shortestAux (fn fd ln ld un ud : Nat) (inclusive : Bool) (dp : Int) : Nat → Nat → Decimal
  | 0, n =>
    let u := pow10 (dp - n)
    ⟨dropTrailingZeros (digitsOf (fn * u.2 / (fd * u.1))), dp⟩
  | fuel + 1, n =>
    let u := pow10 (dp - n)
    let lo := fn * u.2 / (fd * u.1)
    let r := fn * u.2 % (fd * u.1)
    let hi := lo + 1
    let okdown := decide (ln * u.2 < lo * u.1 * ld) || (inclusive && ln * u.2 == lo * u.1 * ld)
    let okup := decide (hi * u.1 * ud < un * u.2) || (inclusive && hi * u.1 * ud == un * u.2)
    let up := decide (fd * u.1 < 2 * r) || (2 * r == fd * u.1 && lo % 2 == 1)
    let pick (d : Nat) : Decimal :=
      ⟨dropTrailingZeros (digitsOf d), dp - n + (digitsOf d).length⟩
    if okdown && okup then pick (if up then hi else lo)
    else if okdown then pick lo
    else if okup then pick hi
    else shortestAux fn fd ln ld un ud inclusive dp fuel (n + 1)

/-- The shortest decimal that `ParseFloat` maps back to `mant * 2^exp`
(precision `-1` of `strconv.FormatFloat`), closest to the value among the
shortest ones.  The lower bound is nearer when the mantissa is the smallest of
its binade. -/
def shortest (mant : Nat) (exp : Int) : Decimal :=
  if mant = 0 then ⟨[], 0⟩
  else
    let f := pow2 exp
    let h := pow2 (exp - 1)
    let q := pow2 (exp - 2)
    let narrow : Bool := decide (mant = 2 ^ 52) && decide (-1074 < exp)
    let ln := if narrow then (4 * mant - 1) * q.1 else (2 * mant - 1) * h.1
    let ld := if narrow then q.2 else h.2
    shortestAux (mant * f.1) f.2 ln ld ((2 * mant + 1) * h.1) h.2 (mant % 2 == 0)
      (decimalPoint (mant * f.1) f.2) 800 0

/-- The ASCII character of a decimal digit. -/
def digitChar (d : Nat) : Char := Char.ofNat (48 + d)

/-- The digit at position `j` of a digit string, `0` outside of it. -/
def digitAt (ds : List Nat) (j : Int) : Nat :=
  match j with
  | Int.ofNat k => ds.getD k 0
  | Int.negSucc _ => 0

/-- The layout `-ddd.ddd` of `strconv` (format `f`) at the shortest
precision, which is the number of digits after the point. -/
def fmtF (neg : Bool) (d : Decimal) : List Char :=
  let sign := if neg then ['-'] else []
  let ip :=
    if 0 < d.dp then (List.range d.dp.toNat).map (fun i => digitChar (d.digits.getD i 0))
    else ['0']
  let prec := ((d.digits.length : Int) - d.dp).toNat
  let fp :=
    if 0 < prec then '.' :: (List.range prec).map (fun i => digitChar (digitAt d.digits (d.dp + i)))
    else []
  sign ++ ip ++ fp

/-- The layout `-d.ddde±dd` of `strconv` (format `e`) at the shortest
precision; the exponent has at least two digits. -/
def fmtE (neg : Bool) (d : Decimal) : List Char :=
  let sign := if neg then ['-'] else []
  let first := digitChar (d.digits.getD 0 0)
  let rest := d.digits.drop 1
  let fp := if rest.isEmpty then [] else '.' :: rest.map digitChar
  let exp : Int := if d.digits.isEmpty then 0 else d.dp - 1
  let esign := if exp < 0 then '-' else '+'
  let a := exp.natAbs
  let ed := if a < 10 then ['0', digitChar a] else (digitsOf a).map digitChar
  sign ++ [first] ++ fp ++ ['e', esign] ++ ed

end Strconv

/-! ## encoding/json: documents, key matching, numbers -/

namespace Json

/-- A JSON value as a syntax tree.  Strings are held unescaped, the members
of an object in the order of the text (a key may occur more than once). -/
inductive Value
  | null
  | bool (b : Bool)
  | number (literal : String)
  | string (s : String)
  | array (items : List Value)
  | object (members : List (String × Value))

/-- The bytes of an HTTP body as `encoding/json` sees them: text that is not
valid JSON, or a JSON value. -/
inductive Document
  | malformed (raw : String)
  | wellFormed (v : Value)

/-- Case folding of one character of a key, as far as it can meet an ASCII
field name: ASCII letters to upper case, the Kelvin sign to `K`, the long s to
`S`. -/
def foldRune (c : Char) : Char :=
  if 97 ≤ c.toNat ∧ c.toNat ≤ 122 then Char.ofNat (c.toNat - 32)
  else if c.toNat = 8490 then 'K'
  else if c.toNat = 383 then 'S'
  else c

/-- The folded form of a key; two keys match regardless of case when their
folded forms are equal. -/
def foldName (s : String) : List Char := s.toList.map foldRune

/-- The outcome of storing one JSON literal into a Go variable: the variable
is left as it was, or set, or the decoder records an error. -/
inductive Stored (α : Type)
  | keep
  | set (v : α)
  | fail

/-- The decoder on the content of a JSON string bound to a `float64` field
tagged `,string` (`literalStore` with `fromQuoted`).  The empty string is an
error; content starting with `n` must be `null`, which leaves the field alone;
content starting with `-` or a digit goes to `strconv.ParseFloat`; anything
else (booleans, a nested string, any other character) is an error. -/
def literalStoreFloat (ext : String → Option Strconv.Float64) (s : String) :
    Stored Strconv.Float64 :=
  match s.toList with
  | [] => Stored.fail
  | c :: _ =>
    if c = 'n' then (if s = "null" then Stored.keep else Stored.fail)
    else if c = '-' ∨ Strconv.isDigit c = true then
      match Strconv.parseFloat ext s with
      | some f => Stored.set f
      | none => Stored.fail
    else Stored.fail

/-- The decoder on the content of a JSON string bound to an `int64` field
tagged `,string`: as `literalStoreFloat`, with `strconv.ParseInt(s, 10, 64)`. -/
def literalStoreInt (s : String) : Stored Int :=
  match s.toList with
  | [] => Stored.fail
  | c :: _ =>
    if c = 'n' then (if s = "null" then Stored.keep else Stored.fail)
    else if c = '-' ∨ Strconv.isDigit c = true then
      match Strconv.parseInt s.toList with
      | some n => Stored.set n
      | none => Stored.fail
    else Stored.fail

/-- Decoding a JSON value into a `float64` field tagged `,string`: only a
JSON string or `null` is accepted.  `none` is an error. -/
def quotedFloat (ext : String → Option Strconv.Float64) (v : Value) (cur : Strconv.Float64) :
    Option Strconv.Float64 :=
  match v with
  | Value.string s =>
    match literalStoreFloat ext s with
    | Stored.set f => some f
    | Stored.keep => some cur
    | Stored.fail => none
  | Value.null => some cur
  | _ => none

/-- Decoding a JSON value into an `int64` field tagged `,string`. -/
def quotedInt (v : Value) (cur : Int) : Option Int :=
  match v with
  | Value.string s =>
    match literalStoreInt s with
    | Stored.set n => some n
    | Stored.keep => some cur
    | Stored.fail => none
  | Value.null => some cur
  | _ => none

/-- Decoding a JSON value into a Go `string`: a JSON string sets it, `null`
leaves it, any other value is a type error. -/
def plainString (v : Value) (cur : String) : Option String :=
  match v with
  | Value.string s => some s
  | Value.null => some cur
  | _ => none

/-- Whether `m1 * 2^e1 < m2 * 2^e2`. -/
def lessThan (m1 : Nat) (e1 : Int) (m2 : Nat) (e2 : Int) : Bool :=
  let a := Strconv.pow2 e1
  let b := Strconv.pow2 e2
  decide (m1 * a.1 * b.2 < m2 * b.1 * a.2)

/-- The clean-up of the exponent done by the float encoder: `e-07` becomes
`e-7`. -/
def cleanExp (b : List Char) : List Char :=
  match b.reverse with
  | c :: z :: sg :: e :: rest =>
    if e = 'e' ∧ (sg = '-' ∨ sg = '+') ∧ z = '0' then (c :: sg :: e :: rest).reverse else b
  | _ => b

/-- The float encoder of `encoding/json` for a `float64`: the shortest
decimal that reads back as the same value, in format `f`, or in format `e`
when the magnitude is non-zero and below `1e-6` or at least `1e21`.
Infinities and NaN are an error (`none`). -/
def encodeFloat64 : Strconv.Float64 → Option String
  | Strconv.Float64.finite neg m e =>
    let d := Strconv.shortest m e
    let useE : Bool :=
      m != 0 && (lessThan m e 4722366482869645 (-72) || !lessThan m e 7629394531250000 17)
    some (String.mk (if useE then cleanExp (Strconv.fmtE neg d) else Strconv.fmtF neg d))
  | _ => none

/-- The text that `ParseFloat` followed by the float encoder makes of a plain
decimal literal: its canonical rendering. -/
def canonicalDecimal (s : String) : Option String :=
  (Strconv.decimalToFloat64 s.toList).bind encodeFloat64

/-- The value of the last member of an object whose key satisfies `p`. -/
def lastMember (p : String → Bool) : List (String × Value) → Option Value
  | [] => none
  | kv :: rest =>
    match lastMember p rest with
    | some v => some v
    | none => if p kv.1 then some kv.2 else none

/-- Decoding the members of an object into a `map[string]string`, held as an
association list with the latest entry first.  A string sets the entry, `null`
sets it to the empty string, any other value is a type error (`none`). -/
def decodeStringMap : List (String × String) → List (String × Value) → Option (List (String × String))
  | m, [] => some m
  | m, kv :: rest =>
    match kv.2 with
    | Value.string s => decodeStringMap ((kv.1, s) :: m) rest
    | Value.null => decodeStringMap ((kv.1, "") :: m) rest
    | _ => none

/-- The call `json.Unmarshal(data, &result)` for `result` a nil
`map[string]string`: `none` for an error, otherwise the map.  Text that is not
JSON is an error, `null` leaves the map nil, an object fills it, and any other
value is a type error. -/
def unmarshalStringMap (doc : Document) : Option (List (String × String)) :=
  match doc with
  | Document.malformed _ => none
  | Document.wellFormed Value.null => some []
  | Document.wellFormed (Value.object ms) => decodeStringMap [] ms
  | Document.wellFormed _ => none

end Json

/-! ## The records of the Origin Service -/

namespace RestServer

/-- The struct `CambioUsdbrl`: one quote as the upstream provider sends it and
as it is stored. -/
structure CambioUsdbrl where
  Code : String
  Codein : String
  Name : String
  High : Strconv.Float64
  Low : Strconv.Float64
  VarBid : Strconv.Float64
  PctChange : Strconv.Float64
  Bid : Strconv.Float64
  Ask : Strconv.Float64
  Timestamp : Int
  CreateDate : String
deriving DecidableEq

/-- The struct `Exchange`: the upstream document, with its one key `USDBRL`. -/
structure Exchange where
  USDBRL : CambioUsdbrl
deriving DecidableEq

/-- The struct `Response`: the projection returned to the caller. -/
structure Response where
  Bid : Strconv.Float64
deriving DecidableEq

end RestServer

/-! ## The environment of both programs -/

/-- A `context.Context` as the value it was built as. -/
inductive Context
  | background
  | request (id : Nat)
  | withTimeout (parent : Context) (millis : Nat)
deriving DecidableEq

/-- The result of `ctx.Err()`. -/
inductive CtxErr
  | nil
  | canceled
  | deadlineExceeded
deriving DecidableEq

/-- The result of `io.ReadAll` on a response body. -/
inductive BodyRead
  | failed (err : String)
  | data (doc : Json.Document)

/-- An `*http.Response`: status code, status text and what reading its body
gives. -/
structure HttpResponse where
  StatusCode : Nat
  Status : String
  Body : BodyRead

/-- The result of `http.DefaultClient.Do`. -/
inductive DoResult
  | failed (err : String)
  | response (resp : HttpResponse)

/-- The result of `f.Write(data)`: all of it written, or an error after `n`
characters. -/
inductive WriteResult
  | done
  | failed (n : Nat) (err : String)

/-- Everything the programs get from outside.  Errors are their texts, `none`
is the nil error. -/
structure Env where
  /-- The error of `http.NewRequestWithContext(ctx, GET, url, nil)`. -/
  newRequest : Context → String → Option String
  /-- The result of `http.DefaultClient.Do` for a request bound to `ctx`. -/
  httpDo : Context → String → DoResult
  /-- What `ctx.Err()` gives when the caller inspects it after `Do` returned. -/
  ctxErr : Context → CtxErr
  /-- The function `strconv.ParseFloat` outside plain decimal literals. -/
  parseFloatExt : String → Option Strconv.Float64
  /-- The text of the error of `json.Unmarshal` on a document it rejects. -/
  jsonErrText : Json.Document → String
  /-- The error of `db.PrepareContext(ctx, INSERT ...)`. -/
  prepare : Context → Option String
  /-- The error of `stmt.ExecContext(ctx, ...)`; the row is inserted exactly
  when there is none. -/
  exec : Context → RestServer.CambioUsdbrl → Option String
  /-- The error of `os.Create(filename)`. -/
  create : String → Option String
  /-- The result of `f.Write(data)` on the file just created. -/
  write : String → String → WriteResult

/-- The function `Logger` of both programs: the formatted message is the log
line. -/
def Logger (logs : List String) (msg : String) : List String := logs ++ [msg]

/-! ## restserver/server.go -/

namespace RestServer

/-- The constant `httpPort`. -/
def httpPort : Nat := 8080

/-- The constant `apiURL`. -/
def apiURL : String := "https://economia.awesomeapi.com.br/json/last/USD-BRL"

/-- The zero value of `CambioUsdbrl`. -/
def CambioUsdbrl.zero : CambioUsdbrl :=
  ⟨"", "", "", Strconv.Float64.zero, Strconv.Float64.zero, Strconv.Float64.zero,
    Strconv.Float64.zero, Strconv.Float64.zero, Strconv.Float64.zero, 0, ""⟩

/-- The fields of `CambioUsdbrl`, in the order of the declaration. -/
inductive Field
  | code | codein | name | high | low | varBid | pctChange | bid | ask | timestamp | createDate
deriving DecidableEq

/-- The key of a field, from its `json` tag. -/
def Field.jsonName : Field → String
  | Field.code => "code"
  | Field.codein => "codein"
  | Field.name => "name"
  | Field.high => "high"
  | Field.low => "low"
  | Field.varBid => "varBid"
  | Field.pctChange => "pctChange"
  | Field.bid => "bid"
  | Field.ask => "ask"
  | Field.timestamp => "timestamp"
  | Field.createDate => "create_date"

/-- All fields of `CambioUsdbrl`. -/
def allFields : List Field :=
  [Field.code, Field.codein, Field.name, Field.high, Field.low, Field.varBid,
    Field.pctChange, Field.bid, Field.ask, Field.timestamp, Field.createDate]

/-- The field a key of the `USDBRL` object is decoded into: the field of
exactly that name, otherwise the first field that matches regardless of case;
`none` for a key that is skipped. -/
def findField (key : String) : Option Field :=
  match allFields.find? (fun f => f.jsonName == key) with
  | some f => some f
  | none => allFields.find? (fun f => Json.foldName f.jsonName == Json.foldName key)

/-- Whether a key of the `USDBRL` object is decoded into the field `Bid`. -/
def isBidKey (key : String) : Bool := findField key == some Field.bid

/-- Whether a key of the top-level object is decoded into the field `USDBRL`
of `Exchange`. -/
def isUsdbrlKey (key : String) : Bool :=
  key == "USDBRL" || Json.foldName "USDBRL" == Json.foldName key

/-- Decoding one JSON value into one field of the record; `none` is an
error.  The numeric fields carry the `,string` tag. -/
def decodeField (ext : String → Option Strconv.Float64) (r : CambioUsdbrl) :
    Field → Json.Value → Option CambioUsdbrl
  | Field.code, v => (Json.plainString v r.Code).map (fun x => { r with Code := x })
  | Field.codein, v => (Json.plainString v r.Codein).map (fun x => { r with Codein := x })
  | Field.name, v => (Json.plainString v r.Name).map (fun x => { r with Name := x })
  | Field.high, v => (Json.quotedFloat ext v r.High).map (fun x => { r with High := x })
  | Field.low, v => (Json.quotedFloat ext v r.Low).map (fun x => { r with Low := x })
  | Field.varBid, v => (Json.quotedFloat ext v r.VarBid).map (fun x => { r with VarBid := x })
  | Field.pctChange, v =>
    (Json.quotedFloat ext v r.PctChange).map (fun x => { r with PctChange := x })
  | Field.bid, v => (Json.quotedFloat ext v r.Bid).map (fun x => { r with Bid := x })
  | Field.ask, v => (Json.quotedFloat ext v r.Ask).map (fun x => { r with Ask := x })
  | Field.timestamp, v => (Json.quotedInt v r.Timestamp).map (fun x => { r with Timestamp := x })
  | Field.createDate, v =>
    (Json.plainString v r.CreateDate).map (fun x => { r with CreateDate := x })

/-- Decoding one member of the `USDBRL` object: a key that matches no field is
skipped. -/
def decodeMember (ext : String → Option Strconv.Float64) (r : CambioUsdbrl)
    (kv : String × Json.Value) : Option CambioUsdbrl :=
  match findField kv.1 with
  | none => some r
  | some f => decodeField ext r f kv.2

/-- Decoding the members of the `USDBRL` object in the order of the text,
each into the record left by the ones before it. -/
def decodeObject (ext : String → Option Strconv.Float64) :
    CambioUsdbrl → List (String × Json.Value) → Option CambioUsdbrl
  | r, [] => some r
  | r, kv :: rest =>
    match decodeMember ext r kv with
    | none => none
    | some r1 => decodeObject ext r1 rest

/-- Decoding the members of the top-level object into `Exchange`: a member
matching `USDBRL` must be an object (decoded into the record) or `null` (no
effect); other keys are skipped. -/
def decodeTop (ext : String → Option Strconv.Float64) :
    Exchange → List (String × Json.Value) → Option Exchange
  | ex, [] => some ex
  | ex, kv :: rest =>
    if isUsdbrlKey kv.1 then
      match kv.2 with
      | Json.Value.object ms =>
        match decodeObject ext ex.USDBRL ms with
        | none => none
        | some r => decodeTop ext ⟨r⟩ rest
      | Json.Value.null => decodeTop ext ex rest
      | _ => none
    else decodeTop ext ex rest

/-- The call `json.Unmarshal(data, &exchange)` on a zero `Exchange`: `none`
for an error.  Text that is not JSON is an error, `null` has no effect, an
object is decoded member by member, any other value is a type error. -/
def unmarshalExchange (ext : String → Option Strconv.Float64) (doc : Json.Document) :
    Option Exchange :=
  match doc with
  | Json.Document.malformed _ => none
  | Json.Document.wellFormed Json.Value.null => some ⟨CambioUsdbrl.zero⟩
  | Json.Document.wellFormed (Json.Value.object ms) => decodeTop ext ⟨CambioUsdbrl.zero⟩ ms
  | Json.Document.wellFormed _ => none

/-- The call `json.NewEncoder(w).Encode(Response{...})`: the text written, or
`none` when the value cannot be encoded and nothing is written. -/
def encodeResponse (r : Response) : Option String :=
  match Json.encodeFloat64 r.Bid with
  | none => none
  | some num => some ("\x7b\"bid\":\"" ++ num ++ "\"\x7d\n")

/-- An inbound `*http.Request`. -/
structure Request where
  RemoteAddr : String
  Method : String
  URL : String
  ctx : Context

/-- What a handler left in its `http.ResponseWriter`: the status code, the
headers it set and the body it wrote. -/
structure ResponseWriter where
  status : Nat
  header : List (String × String)
  body : String
deriving DecidableEq

/-- The outcome of one run of the handler. -/
structure HandlerResult where
  /-- The HTTP response. -/
  response : ResponseWriter
  /-- The rows of the table `CambioUsdbrl` afterwards. -/
  db : List CambioUsdbrl
  /-- The lines logged. -/
  logs : List String
  /-- The calls of `writeData`: the context and the record of each. -/
  writes : List (Context × CambioUsdbrl)
  /-- The value handed to the JSON encoder, if the run got there. -/
  projection : Option Response

/-- The function `doAPICall`. -/
def doAPICall (env : Env) (ctx : Context) (url : String) : Except String HttpResponse :=
  match env.newRequest ctx url with
  | some err => Except.error ("failed to create request: " ++ err)
  | none =>
    let res := env.httpDo ctx url
    if env.ctxErr ctx = CtxErr.deadlineExceeded then Except.error "process timed out"
    else
      match res with
      | DoResult.failed err => Except.error ("failed to make request: " ++ err)
      | DoResult.response resp =>
        if resp.StatusCode ≠ 200 then Except.error ("server returned status: " ++ resp.Status)
        else Except.ok resp

/-- The function `parseAPIResponse`. -/
def parseAPIResponse (env : Env) (resp : HttpResponse) : Except String Exchange :=
  match resp.Body with
  | BodyRead.failed err => Except.error ("failed to read response: " ++ err)
  | BodyRead.data doc =>
    match unmarshalExchange env.parseFloatExt doc with
    | none => Except.error ("failed to parse JSON: " ++ env.jsonErrText doc)
    | some exchange => Except.ok exchange

/-- The function `writeData`: the error returned and the table afterwards. -/
def writeData (env : Env) (ctx : Context) (db : List CambioUsdbrl) (data : CambioUsdbrl) :
    Option String × List CambioUsdbrl :=
  match env.prepare ctx with
  | some err => (some err, db)
  | none =>
    match env.exec ctx data with
    | some err => (some ("failed to write to database: " ++ err), db)
    | none => (none, db ++ [data])

/-- The function `httpErrorResponse`: the line logged and the response written
by `http.Error`. -/
def httpErrorResponse (logs : List String) (err : String) (code : Nat) :
    List String × ResponseWriter :=
  (Logger logs ("Error: " ++ err),
    ⟨code, [("Content-Type", "text/plain; charset=utf-8"), ("X-Content-Type-Options", "nosniff")],
      "Error: " ++ err ++ "\n"⟩)

/-- The function `handler` applied to one request. -/
def handler (env : Env) (r : Request) (db : List CambioUsdbrl) : HandlerResult :=
  let ctx := Context.withTimeout r.ctx 200
  let logs := Logger [] (r.RemoteAddr ++ " " ++ r.Method ++ " " ++ r.URL)
  match doAPICall env ctx apiURL with
  | Except.error err =>
    let out := httpErrorResponse logs err 500
    ⟨out.2, db, out.1, [], none⟩
  | Except.ok resp =>
    match parseAPIResponse env resp with
    | Except.error err =>
      let out := httpErrorResponse logs err 500
      ⟨out.2, db, out.1, [], none⟩
    | Except.ok exchange =>
      let ctx2 := Context.withTimeout Context.background 10
      match writeData env ctx2 db exchange.USDBRL with
      | (some err, db1) =>
        let out := httpErrorResponse logs err 500
        ⟨out.2, db1, out.1, [(ctx2, exchange.USDBRL)], none⟩
      | (none, db1) =>
        let projection : Response := ⟨exchange.USDBRL.Bid⟩
        let body := (encodeResponse projection).getD ""
        ⟨⟨200, [("Content-Type", "application/json")], body⟩, db1, logs,
          [(ctx2, exchange.USDBRL)], some projection⟩

end RestServer

/-! ## restclient/client.go -/

namespace RestClient

/-- The constant `urlCotacaoServer`. -/
def urlCotacaoServer : String := "http://localhost:8080/cotacao"

/-- The constant `OutputFile`. -/
def OutputFile : String := "cotacao.txt"

/-- The function `doRequest`. -/
def doRequest (env : Env) (ctx : Context) (url : String) : Except String Json.Document :=
  match env.httpDo ctx url with
  | DoResult.failed err => Except.error err
  | DoResult.response res =>
    if res.StatusCode ≠ 200 then Except.error ("server returned status: " ++ res.Status)
    else
      match res.Body with
      | BodyRead.failed err => Except.error err
      | BodyRead.data body => Except.ok body

/-- The function `makeGetRequest`. -/
def makeGetRequest (env : Env) (ctx : Context) (url : String) : Except String Json.Document :=
  match env.newRequest ctx url with
  | some err => Except.error err
  | none =>
    match doRequest env ctx url with
    | Except.error err =>
      if env.ctxErr ctx = CtxErr.deadlineExceeded then Except.error "process timed out"
      else Except.error err
    | Except.ok res => Except.ok res

/-- The function `writeDataToFile` on the file whose content is `sink`
(`none` when it does not exist): the count and error returned, and the content
afterwards.  Creating the file empties it; a failed write leaves what was
written before the error. -/
def writeDataToFile (env : Env) (filename : String) (data : String) (sink : Option String) :
    (Nat × Option String) × Option String :=
  match env.create filename with
  | some err => ((0, some err), sink)
  | none =>
    match env.write filename data with
    | WriteResult.failed n err => ((0, some err), some (String.mk (data.toList.take n)))
    | WriteResult.done => ((data.utf8ByteSize, none), some data)

/-- The outcome of one run of the client. -/
structure FetchResult where
  /-- The error returned, `none` for nil. -/
  err : Option String
  /-- The content of the output file afterwards. -/
  sink : Option String
  /-- The lines logged. -/
  logs : List String
deriving DecidableEq

/-- The function `fetchAndSaveData`, started with the output file holding
`sink`. -/
def fetchAndSaveData (env : Env) (sink : Option String) : FetchResult :=
  let ctx := Context.withTimeout Context.background 300
  match makeGetRequest env ctx urlCotacaoServer with
  | Except.error err => ⟨some err, sink, []⟩
  | Except.ok respBody =>
    match Json.unmarshalStringMap respBody with
    | none => ⟨some ("erro json: " ++ env.jsonErrText respBody), sink, []⟩
    | some result =>
      match result.lookup "bid" with
      | none => ⟨some "JSON does not contain \x27bid\x27 field", sink, []⟩
      | some bid =>
        let newData := "Dólar: " ++ bid
        match writeDataToFile env OutputFile newData sink with
        | ((_, some err), sink1) => ⟨some err, sink1, []⟩
        | ((_, none), sink1) =>
          ⟨none, sink1, Logger [] ("request processed with output file: ./" ++ OutputFile)⟩

end RestClient

/-! ## Concrete runs -/

namespace Runs

open RestServer RestClient

/-- The members of a `USDBRL` object in the format of the provider, with the
given `bid`. -/
def quoteMembers (bid : String) : List (String × Json.Value) :=
  [("code", Json.Value.string "USD"),
    ("codein", Json.Value.string "BRL"),
    ("name", Json.Value.string "Dólar Americano/Real Brasileiro"),
    ("high", Json.Value.string "5.4512"),
    ("low", Json.Value.string "5.3987"),
    ("varBid", Json.Value.string "0.0123"),
    ("pctChange", Json.Value.string "0.23"),
    ("bid", Json.Value.string bid),
    ("ask", Json.Value.string "5.4331"),
    ("timestamp", Json.Value.string "1718304000"),
    ("create_date", Json.Value.string "2024-06-13 16:00:00")]

/-- An upstream document in the format of the provider, with the given `bid`. -/
def quote (bid : String) : Json.Value :=
  Json.Value.object [("USDBRL", Json.Value.object (quoteMembers bid))]

/-- A response `200 OK` with the given body. -/
def ok200 (v : Json.Value) : HttpResponse :=
  ⟨200, "200 OK", BodyRead.data (Json.Document.wellFormed v)⟩

/-- An environment in which nothing fails and every HTTP call is answered by
`resp`. -/
def calm (resp : HttpResponse) : Env :=
  ⟨fun _ _ => none, fun _ _ => DoResult.response resp, fun _ => CtxErr.nil, fun _ => none,
    fun _ => "unexpected end of JSON input", fun _ => none, fun _ _ => none, fun _ => none,
    fun _ _ => WriteResult.done⟩

/-- An inbound request to `/cotacao`. -/
def inbound : Request := ⟨"127.0.0.1:51234", "GET", "/cotacao", Context.request 1⟩

/-- The upstream provider answers in time with the bid `5.4321`. -/
def envQuote : Env := calm (ok200 (quote "5.4321"))

/-- The upstream provider answers in time with the bid `5.40`. -/
def envTrailingZero : Env := calm (ok200 (quote "5.40"))

/-- The record decoded from `quote "5.4321"`. -/
def quoteRecord : CambioUsdbrl :=
  ⟨"USD", "BRL", "Dólar Americano/Real Brasileiro",
    Strconv.Float64.finite false 6137505572180512 (-50),
    Strconv.Float64.finite false 6078395827071274 (-50),
    Strconv.Float64.finite false 7090467253332109 (-59),
    Strconv.Float64.finite false 8286623314361713 (-55),
    Strconv.Float64.finite false 6116000883959818 (-50),
    Strconv.Float64.finite false 6117126783866660 (-50),
    1718304000, "2024-06-13 16:00:00"⟩

/-- The insert does not finish within its deadline. -/
def envStoreFails : Env :=
  ⟨fun _ _ => none, fun _ _ => DoResult.response (ok200 (quote "5.4321")), fun _ => CtxErr.nil,
    fun _ => none, fun _ => "unexpected end of JSON input", fun _ => none,
    fun _ _ => some "context deadline exceeded", fun _ => none, fun _ _ => WriteResult.done⟩

/-- Preparing the insert fails. -/
def envPrepareFails : Env :=
  ⟨fun _ _ => none, fun _ _ => DoResult.response (ok200 (quote "5.4321")), fun _ => CtxErr.nil,
    fun _ => none, fun _ => "unexpected end of JSON input", fun _ => some "database is locked",
    fun _ _ => none, fun _ => none, fun _ _ => WriteResult.done⟩

/-- No answer arrives before the deadline of the call: the transport gives
up and the context reports the deadline. -/
def envTimeout : Env :=
  ⟨fun _ _ => none, fun _ _ => DoResult.failed "context deadline exceeded",
    fun _ => CtxErr.deadlineExceeded, fun _ => none, fun _ => "unexpected end of JSON input",
    fun _ => none, fun _ _ => none, fun _ => none, fun _ _ => WriteResult.done⟩

/-- The connection is refused at once, well before any deadline. -/
def envRefused : Env :=
  ⟨fun _ _ => none, fun _ _ => DoResult.failed "connection refused", fun _ => CtxErr.nil,
    fun _ => none, fun _ => "unexpected end of JSON input", fun _ => none, fun _ _ => none,
    fun _ => none, fun _ _ => WriteResult.done⟩

/-- A response `503 Service Unavailable` with an empty body. -/
def unavailable : HttpResponse :=
  ⟨503, "503 Service Unavailable", BodyRead.data (Json.Document.malformed "")⟩

/-- The peer answers `503` in time. -/
def envUnavailable : Env := calm unavailable

/-- The peer answers `503`, and the deadline passes before the caller looks
at the context. -/
def envUnavailableLate : Env :=
  ⟨fun _ _ => none, fun _ _ => DoResult.response unavailable, fun _ => CtxErr.deadlineExceeded,
    fun _ => none, fun _ => "unexpected end of JSON input", fun _ => none, fun _ _ => none,
    fun _ => none, fun _ _ => WriteResult.done⟩

/-- A second inbound request, from another client. -/
def inbound2 : Request := ⟨"10.0.0.7:40022", "GET", "/cotacao", Context.request 2⟩

/-- As `envQuote`, but every context derived from an inbound request is found
cancelled once the upstream call has returned. -/
def envCancelled : Env :=
  ⟨fun _ _ => none, fun _ _ => DoResult.response (ok200 (quote "5.4321")),
    fun c => if c = Context.withTimeout Context.background 10 then CtxErr.nil else CtxErr.canceled,
    fun _ => none, fun _ => "unexpected end of JSON input", fun _ => none, fun _ _ => none,
    fun _ => none, fun _ _ => WriteResult.done⟩

/-- The body of the Origin Service for the bid `5.4321`. -/
def bidBody : Json.Value := Json.Value.object [("bid", Json.Value.string "5.4321")]

/-- The Origin Service answers the client with the bid `5.4321`. -/
def envBid : Env := calm (ok200 bidBody)

/-- The Origin Service answers the client with an object that has no `bid`
but a number under another key. -/
def envNumberMember : Env :=
  ⟨fun _ _ => none,
    fun _ _ => DoResult.response (ok200 (Json.Value.object [("ask", Json.Value.number "5.4331")])),
    fun _ => CtxErr.nil, fun _ => none,
    fun _ => "json: cannot unmarshal number into Go value of type string", fun _ => none,
    fun _ _ => none, fun _ => none, fun _ _ => WriteResult.done⟩

/-- The Origin Service answers the client with an object that has no `bid`,
only string members. -/
def envNoBid : Env := calm (ok200 (Json.Value.object [("ask", Json.Value.string "5.4331")]))

end Runs

/-! # Theorems -/

/-! ## Shared lemmas -/

/-- A string is not another one followed by anything when their first
characters differ. -/
theorem ne_append_of_head_ne (a b : String) (c d : Char) (ra rb : List Char)
    (ha : a.data = c :: ra) (hb : b.data = d :: rb) (hcd : c ≠ d) (e : String) :
    a ≠ b ++ e := by
  intro h
  have h2 : a.data = (b ++ e).data := by rw [h]
  rw [String.data_append, ha, hb] at h2
  simp at h2
  exact hcd h2.1

namespace RestServer

/-- The response written by `http.Error` for status 500. -/
theorem httpErrorResponse_500 (logs : List String) (err : String) :
    httpErrorResponse logs err 500 =
      (logs ++ ["Error: " ++ err],
        ⟨500, [("Content-Type", "text/plain; charset=utf-8"), ("X-Content-Type-Options", "nosniff")],
          "Error: " ++ err ++ "\n"⟩) := rfl

/-- A call whose context reports the deadline is answered by the timeout
error, whatever the transport returned. -/
theorem doAPICall_deadline (env : Env) (ctx : Context) (url : String)
    (hreq : env.newRequest ctx url = none) (hctx : env.ctxErr ctx = CtxErr.deadlineExceeded) :
    doAPICall env ctx url = Except.error "process timed out" := by
  simp [doAPICall, hreq, hctx]

/-- The two outcomes of `writeData` after a successful prepare. -/
theorem writeData_cases (env : Env) (ctx : Context) (db : List CambioUsdbrl) (data : CambioUsdbrl) :
    (writeData env ctx db data = (none, db ++ [data]) ∧ env.prepare ctx = none ∧
        env.exec ctx data = none) ∨
      (∃ err, (writeData env ctx db data) = (some err, db)) := by
  unfold writeData
  cases hp : env.prepare ctx with
  | some e => right; exact ⟨e, rfl⟩
  | none =>
    cases he : env.exec ctx data with
    | some e => right; exact ⟨_, rfl⟩
    | none => left; exact ⟨rfl, rfl, rfl⟩

end RestServer

/-! ## The Origin Service: failures, deadlines, rows -/

open RestServer RestClient

/-- C2: when any of the three stages of the handler fails with an error, the
response is exactly the one of `http.Error` with status 500 and the text of
that error, the error is logged, and no projection is handed to the JSON
encoder; this covers a failing `writeData` after a successful call and
parse. -/
theorem handler_stage_failure_is_500 (env : Env) (r : Request) (db : List CambioUsdbrl)
    (err : String)
    (h : doAPICall env (Context.withTimeout r.ctx 200) apiURL = Except.error err ∨
      (∃ resp, doAPICall env (Context.withTimeout r.ctx 200) apiURL = Except.ok resp ∧
        parseAPIResponse env resp = Except.error err) ∨
      (∃ resp exchange, doAPICall env (Context.withTimeout r.ctx 200) apiURL = Except.ok resp ∧
        parseAPIResponse env resp = Except.ok exchange ∧
        (writeData env (Context.withTimeout Context.background 10) db exchange.USDBRL).1
          = some err)) :
    (handler env r db).response =
        ⟨500, [("Content-Type", "text/plain; charset=utf-8"), ("X-Content-Type-Options", "nosniff")],
          "Error: " ++ err ++ "\n"⟩ ∧
      (handler env r db).projection = none ∧
      "Error: " ++ err ∈ (handler env r db).logs := by
  rcases h with h | ⟨resp, h1, h2⟩ | ⟨resp, exchange, h1, h2, h3⟩
  · simp [handler, h, httpErrorResponse, Logger]
  · simp [handler, h1, h2, httpErrorResponse, Logger]
  · cases hw : writeData env (Context.withTimeout Context.background 10) db exchange.USDBRL with
    | mk a b =>
      rw [hw] at h3
      simp at h3
      subst h3
      simp [handler, h1, h2, hw, httpErrorResponse, Logger]

/-- C2 at a run where the call and the parse succeed and the insert fails. -/
theorem handler_stage_failure_is_500_witness :
    (handler Runs.envStoreFails Runs.inbound []).response =
        ⟨500, [("Content-Type", "text/plain; charset=utf-8"), ("X-Content-Type-Options", "nosniff")],
          "Error: " ++ "failed to write to database: context deadline exceeded" ++ "\n"⟩ ∧
      (handler Runs.envStoreFails Runs.inbound []).projection = none ∧
      "Error: " ++ "failed to write to database: context deadline exceeded" ∈
        (handler Runs.envStoreFails Runs.inbound []).logs :=
  handler_stage_failure_is_500 Runs.envStoreFails Runs.inbound []
    "failed to write to database: context deadline exceeded"
    (Or.inr (Or.inr ⟨_, _, rfl, rfl, rfl⟩))

/-- C3: when the request was created and the context of the upstream call
reports `DeadlineExceeded`, `doAPICall` returns the error `process timed out`
and not the transport error `failed to make request: ...`, the handler answers
500 with that error and logs it, `writeData` is not called and the table is
left as it was. -/
theorem handler_deadline_exceeded (env : Env) (r : Request) (db : List CambioUsdbrl)
    (hreq : env.newRequest (Context.withTimeout r.ctx 200) apiURL = none)
    (hctx : env.ctxErr (Context.withTimeout r.ctx 200) = CtxErr.deadlineExceeded) :
    doAPICall env (Context.withTimeout r.ctx 200) apiURL = Except.error "process timed out" ∧
      (∀ e, doAPICall env (Context.withTimeout r.ctx 200) apiURL ≠
        Except.error ("failed to make request: " ++ e)) ∧
      (handler env r db).response =
        ⟨500, [("Content-Type", "text/plain; charset=utf-8"), ("X-Content-Type-Options", "nosniff")],
          "Error: process timed out\n"⟩ ∧
      "Error: process timed out" ∈ (handler env r db).logs ∧
      (handler env r db).writes = [] ∧
      (handler env r db).db = db := by
  have h := doAPICall_deadline env _ apiURL hreq hctx
  refine ⟨h, ?_, ?_, ?_, ?_, ?_⟩
  · intro e he
    rw [h] at he
    injection he with he
    exact ne_append_of_head_ne "process timed out" "failed to make request: " 'p' 'f' _ _ rfl rfl
      (by decide) e he
  · simp only [handler, h, httpErrorResponse_500]
    rfl
  · simp only [handler, h, httpErrorResponse_500, Logger]
    simp
  · simp only [handler, h]
  · simp only [handler, h]

/-- C3 at a run where the upstream provider does not answer in time. -/
theorem handler_deadline_exceeded_witness :
    doAPICall Runs.envTimeout (Context.withTimeout Runs.inbound.ctx 200) apiURL
        = Except.error "process timed out" ∧
      (∀ e, doAPICall Runs.envTimeout (Context.withTimeout Runs.inbound.ctx 200) apiURL ≠
        Except.error ("failed to make request: " ++ e)) ∧
      (handler Runs.envTimeout Runs.inbound []).response =
        ⟨500, [("Content-Type", "text/plain; charset=utf-8"), ("X-Content-Type-Options", "nosniff")],
          "Error: process timed out\n"⟩ ∧
      "Error: process timed out" ∈ (handler Runs.envTimeout Runs.inbound []).logs ∧
      (handler Runs.envTimeout Runs.inbound []).writes = [] ∧
      (handler Runs.envTimeout Runs.inbound []).db = [] :=
  handler_deadline_exceeded Runs.envTimeout Runs.inbound [] rfl rfl

/-- C4: a run of the handler answers 200 or 500; the table gains exactly one
row, the decoded record, when the answer is 200 and is unchanged when it is
500; `writeData` is called at most once, and only with the record parsed from
a successful upstream call; and a 200 is answered exactly when the call, the
parse and the insert have all succeeded. -/
theorem handler_rows (env : Env) (r : Request) (db : List CambioUsdbrl) :
    ((handler env r db).response.status = 200 ∨ (handler env r db).response.status = 500) ∧
      (handler env r db).db.length
        = db.length + (if (handler env r db).response.status = 200 then 1 else 0) ∧
      ((handler env r db).response.status = 500 → (handler env r db).db = db) ∧
      (handler env r db).writes.length ≤ 1 ∧
      (∀ w ∈ (handler env r db).writes, ∃ resp exchange,
        doAPICall env (Context.withTimeout r.ctx 200) apiURL = Except.ok resp ∧
        parseAPIResponse env resp = Except.ok exchange ∧
        w = (Context.withTimeout Context.background 10, exchange.USDBRL)) ∧
      ((handler env r db).response.status = 200 ↔ ∃ resp exchange,
        doAPICall env (Context.withTimeout r.ctx 200) apiURL = Except.ok resp ∧
        parseAPIResponse env resp = Except.ok exchange ∧
        writeData env (Context.withTimeout Context.background 10) db exchange.USDBRL
          = (none, db ++ [exchange.USDBRL]) ∧
        (handler env r db).db = db ++ [exchange.USDBRL]) := by
  cases h1 : doAPICall env (Context.withTimeout r.ctx 200) apiURL with
  | error e => simp [handler, h1, httpErrorResponse]
  | ok resp =>
    cases h2 : parseAPIResponse env resp with
    | error e => simp [handler, h1, h2, httpErrorResponse]
    | ok exchange =>
      rcases writeData_cases env (Context.withTimeout Context.background 10) db exchange.USDBRL
        with ⟨hw, _, _⟩ | ⟨e, hw⟩
      · simp [handler, h1, h2, hw]
      · simp [handler, h1, h2, hw, httpErrorResponse]

/-- C9: the context handed to `writeData` is the fresh 10 ms deadline on the
background context, whatever the inbound request's context is and whatever
state it is in.  Two runs on different inbound requests, in environments that
agree on the database and in which the call and the parse give the same
record, call `writeData` once with that same context and record, and end with
the same table and the same response. -/
theorem persistence_context_independent (env1 env2 : Env) (r1 r2 : Request)
    (db : List CambioUsdbrl) (resp1 resp2 : HttpResponse) (exchange : Exchange)
    (hprep : env1.prepare = env2.prepare) (hexec : env1.exec = env2.exec)
    (hc1 : doAPICall env1 (Context.withTimeout r1.ctx 200) apiURL = Except.ok resp1)
    (hc2 : doAPICall env2 (Context.withTimeout r2.ctx 200) apiURL = Except.ok resp2)
    (hp1 : parseAPIResponse env1 resp1 = Except.ok exchange)
    (hp2 : parseAPIResponse env2 resp2 = Except.ok exchange) :
    (handler env1 r1 db).writes = [(Context.withTimeout Context.background 10, exchange.USDBRL)] ∧
      (handler env2 r2 db).writes = [(Context.withTimeout Context.background 10, exchange.USDBRL)] ∧
      (handler env1 r1 db).db = (handler env2 r2 db).db ∧
      (handler env1 r1 db).response = (handler env2 r2 db).response := by
  have hw : writeData env1 (Context.withTimeout Context.background 10) db exchange.USDBRL
      = writeData env2 (Context.withTimeout Context.background 10) db exchange.USDBRL := by
    simp [writeData, hprep, hexec]
  rcases writeData_cases env2 (Context.withTimeout Context.background 10) db exchange.USDBRL
    with ⟨hw2, _, _⟩ | ⟨e, hw2⟩
  · rw [hw2] at hw
    simp [handler, hc1, hc2, hp1, hp2, hw, hw2]
  · rw [hw2] at hw
    simp [handler, hc1, hc2, hp1, hp2, hw, hw2, httpErrorResponse]

/-- C9 at two runs: one whose inbound context stays live, one whose inbound
context is found cancelled after the upstream call returned. -/
theorem persistence_context_independent_witness :
    (handler Runs.envQuote Runs.inbound []).writes
        = [(Context.withTimeout Context.background 10,
            Runs.quoteRecord)] ∧
      (handler Runs.envCancelled Runs.inbound2 []).writes
        = [(Context.withTimeout Context.background 10,
            Runs.quoteRecord)] ∧
      (handler Runs.envQuote Runs.inbound []).db = (handler Runs.envCancelled Runs.inbound2 []).db ∧
      (handler Runs.envQuote Runs.inbound []).response
        = (handler Runs.envCancelled Runs.inbound2 []).response ∧
      Runs.envCancelled.ctxErr Runs.inbound2.ctx = CtxErr.canceled ∧
      Runs.envQuote.ctxErr Runs.inbound.ctx = CtxErr.nil :=
  have h := persistence_context_independent Runs.envQuote Runs.envCancelled Runs.inbound
    Runs.inbound2 [] (Runs.ok200 (Runs.quote "5.4321")) (Runs.ok200 (Runs.quote "5.4321"))
    ⟨Runs.quoteRecord⟩ rfl rfl rfl rfl rfl rfl
  ⟨h.1, h.2.1, h.2.2.1, h.2.2.2, rfl, rfl⟩

/-! ## Deadlines and status codes on both sides -/

/-- C5: in `makeGetRequest`, once the request is created, a failed request
whose context reports the deadline is answered by the one fixed message
`process timed out`, whatever the underlying error is: two failing runs with
the deadline exceeded return the same error.  A failed request whose context
does not report the deadline returns the underlying error unchanged. -/
theorem makeGetRequest_timeout_message (env1 env2 env3 : Env) (ctx : Context) (url : String)
    (e1 e2 e3 : String)
    (hr1 : env1.newRequest ctx url = none) (hr2 : env2.newRequest ctx url = none)
    (hr3 : env3.newRequest ctx url = none)
    (hf1 : doRequest env1 ctx url = Except.error e1)
    (hf2 : doRequest env2 ctx url = Except.error e2)
    (hf3 : doRequest env3 ctx url = Except.error e3)
    (hd1 : env1.ctxErr ctx = CtxErr.deadlineExceeded)
    (hd2 : env2.ctxErr ctx = CtxErr.deadlineExceeded)
    (hd3 : env3.ctxErr ctx ≠ CtxErr.deadlineExceeded) :
    makeGetRequest env1 ctx url = Except.error "process timed out" ∧
      makeGetRequest env2 ctx url = makeGetRequest env1 ctx url ∧
      makeGetRequest env3 ctx url = Except.error e3 := by
  simp [makeGetRequest, hr1, hr2, hr3, hf1, hf2, hf3, hd1, hd2, hd3]

/-- C5 at three runs under the 300 ms deadline of the client: a transport
timeout, a `503` answered as the deadline passes, and a refused connection. -/
theorem makeGetRequest_timeout_message_witness :
    (makeGetRequest Runs.envTimeout (Context.withTimeout Context.background 300) urlCotacaoServer
        = Except.error "process timed out" ∧
      makeGetRequest Runs.envUnavailableLate (Context.withTimeout Context.background 300)
          urlCotacaoServer
        = makeGetRequest Runs.envTimeout (Context.withTimeout Context.background 300)
          urlCotacaoServer ∧
      makeGetRequest Runs.envRefused (Context.withTimeout Context.background 300) urlCotacaoServer
        = Except.error "connection refused") ∧
      (fetchAndSaveData Runs.envUnavailableLate (some "old")).err = some "process timed out" :=
  ⟨makeGetRequest_timeout_message Runs.envTimeout Runs.envUnavailableLate Runs.envRefused
    (Context.withTimeout Context.background 300) urlCotacaoServer "context deadline exceeded"
    "server returned status: 503 Service Unavailable" "connection refused"
    rfl rfl rfl rfl rfl rfl rfl rfl (by decide), by decide⟩

/-- C8 as stated fails: a `503` response that is looked at after the deadline
has passed is reported as `process timed out` by both programs, without the
status text. -/
theorem status_error_counterexample :
    makeGetRequest Runs.envUnavailableLate (Context.withTimeout Context.background 300)
        urlCotacaoServer = Except.error "process timed out" ∧
      doAPICall Runs.envUnavailableLate (Context.withTimeout Runs.inbound.ctx 200) apiURL
        = Except.error "process timed out" ∧
      Runs.unavailable.StatusCode ≠ 200 ∧
      "process timed out" ≠ "server returned status: " ++ Runs.unavailable.Status :=
  ⟨rfl, rfl, by decide, by decide⟩

/-- C8, amended: for a response whose status code is not 200, looked at while
the context does not report the deadline, `makeGetRequest` and `doAPICall`
both return the error `server returned status: ` followed by the status text
of the response, and no body. -/
theorem status_error_within_deadline (env : Env) (ctx : Context) (url : String)
    (resp : HttpResponse)
    (hreq : env.newRequest ctx url = none)
    (hdo : env.httpDo ctx url = DoResult.response resp)
    (hstatus : resp.StatusCode ≠ 200)
    (hctx : env.ctxErr ctx ≠ CtxErr.deadlineExceeded) :
    makeGetRequest env ctx url = Except.error ("server returned status: " ++ resp.Status) ∧
      doAPICall env ctx url = Except.error ("server returned status: " ++ resp.Status) := by
  simp [makeGetRequest, doRequest, doAPICall, hreq, hdo, hstatus, hctx]

/-- C8, amended, at a `503` answered in time. -/
theorem status_error_within_deadline_witness :
    makeGetRequest Runs.envUnavailable (Context.withTimeout Context.background 300)
        urlCotacaoServer
        = Except.error ("server returned status: " ++ "503 Service Unavailable") ∧
      doAPICall Runs.envUnavailable (Context.withTimeout Context.background 300) urlCotacaoServer
        = Except.error ("server returned status: " ++ "503 Service Unavailable") :=
  status_error_within_deadline Runs.envUnavailable (Context.withTimeout Context.background 300)
    urlCotacaoServer Runs.unavailable rfl rfl (by decide) (by decide)

/-! ## How the stages of the Origin Service report errors -/

/-- C10 as stated fails twice.  A call that runs into its deadline returns
`process timed out`, not the transport error behind a stage tag; and a failure
to prepare the insert is returned bare, without `failed to write to
database: `. -/
theorem stage_wrapping_counterexample :
    Runs.envTimeout.httpDo (Context.withTimeout Runs.inbound.ctx 200) apiURL
        = DoResult.failed "context deadline exceeded" ∧
      doAPICall Runs.envTimeout (Context.withTimeout Runs.inbound.ctx 200) apiURL
        = Except.error "process timed out" ∧
      "process timed out" ≠ "failed to make request: " ++ "context deadline exceeded" ∧
      Runs.envPrepareFails.prepare (Context.withTimeout Context.background 10)
        = some "database is locked" ∧
      (writeData Runs.envPrepareFails (Context.withTimeout Context.background 10) []
        CambioUsdbrl.zero).1 = some "database is locked" ∧
      "database is locked" ≠ "failed to write to database: " ++ "database is locked" :=
  ⟨rfl, rfl, by decide, rfl, rfl, by decide⟩

/-- C10, amended: an error returned by `doAPICall`, by `parseAPIResponse`, or
by `writeData` once the insert was prepared, is one of: the error of creating
the request, of the transport, of reading the body, of decoding the JSON or of
executing the insert, each behind the tag of its stage; or one of the two
messages a stage makes itself, `process timed out` when the context reports
the deadline and `server returned status: ` with the status text for a
response that is not 200. -/
theorem stage_errors_classified (env : Env) (ctx ctx2 : Context) (url : String)
    (resp : HttpResponse) (db : List CambioUsdbrl) (data : CambioUsdbrl) (err : String)
    (h : doAPICall env ctx url = Except.error err ∨
      parseAPIResponse env resp = Except.error err ∨
      (env.prepare ctx2 = none ∧ (writeData env ctx2 db data).1 = some err)) :
    (∃ e, env.newRequest ctx url = some e ∧ err = "failed to create request: " ++ e) ∨
      (env.ctxErr ctx = CtxErr.deadlineExceeded ∧ err = "process timed out") ∨
      (∃ e, env.httpDo ctx url = DoResult.failed e ∧ err = "failed to make request: " ++ e) ∨
      (∃ r, env.httpDo ctx url = DoResult.response r ∧ r.StatusCode ≠ 200 ∧
        err = "server returned status: " ++ r.Status) ∨
      (∃ e, resp.Body = BodyRead.failed e ∧ err = "failed to read response: " ++ e) ∨
      (∃ doc, resp.Body = BodyRead.data doc ∧ unmarshalExchange env.parseFloatExt doc = none ∧
        err = "failed to parse JSON: " ++ env.jsonErrText doc) ∨
      (∃ e, env.exec ctx2 data = some e ∧ err = "failed to write to database: " ++ e ∧
        (writeData env ctx2 db data).2 = db) := by
  rcases h with h | h | ⟨hp, h⟩
  · unfold doAPICall at h
    cases hn : env.newRequest ctx url with
    | some e =>
      rw [hn] at h
      simp at h
      exact Or.inl ⟨e, rfl, h.symm⟩
    | none =>
      rw [hn] at h
      simp only at h
      by_cases hd : env.ctxErr ctx = CtxErr.deadlineExceeded
      · simp [hd] at h
        exact Or.inr (Or.inl ⟨hd, h.symm⟩)
      · simp only [hd, if_false] at h
        cases hdo : env.httpDo ctx url with
        | failed e =>
          rw [hdo] at h
          simp at h
          exact Or.inr (Or.inr (Or.inl ⟨e, rfl, h.symm⟩))
        | response r =>
          rw [hdo] at h
          by_cases hs : r.StatusCode = 200
          · simp [hs] at h
          · simp [hs] at h
            exact Or.inr (Or.inr (Or.inr (Or.inl ⟨r, rfl, hs, h.symm⟩)))
  · unfold parseAPIResponse at h
    cases hb : resp.Body with
    | failed e =>
      rw [hb] at h
      simp at h
      exact Or.inr (Or.inr (Or.inr (Or.inr (Or.inl ⟨e, rfl, h.symm⟩))))
    | data doc =>
      rw [hb] at h
      cases hu : unmarshalExchange env.parseFloatExt doc with
      | none =>
        simp [hu] at h
        exact Or.inr (Or.inr (Or.inr (Or.inr (Or.inr (Or.inl ⟨doc, rfl, hu, h.symm⟩)))))
      | some ex =>
        simp [hu] at h
  · unfold writeData at h ⊢
    rw [hp] at h ⊢
    cases he : env.exec ctx2 data with
    | some e =>
      rw [he] at h
      simp at h
      exact Or.inr (Or.inr (Or.inr (Or.inr (Or.inr (Or.inr ⟨e, rfl, h.symm, rfl⟩)))))
    | none =>
      rw [he] at h
      simp at h

/-- C10, amended, at a run where executing the insert fails. -/
theorem stage_errors_classified_witness :
    (∃ e, Runs.envStoreFails.newRequest (Context.withTimeout Runs.inbound.ctx 200) apiURL = some e ∧
        "failed to write to database: context deadline exceeded"
          = "failed to create request: " ++ e) ∨
      (Runs.envStoreFails.ctxErr (Context.withTimeout Runs.inbound.ctx 200)
          = CtxErr.deadlineExceeded ∧
        "failed to write to database: context deadline exceeded" = "process timed out") ∨
      (∃ e, Runs.envStoreFails.httpDo (Context.withTimeout Runs.inbound.ctx 200) apiURL
          = DoResult.failed e ∧
        "failed to write to database: context deadline exceeded"
          = "failed to make request: " ++ e) ∨
      (∃ r, Runs.envStoreFails.httpDo (Context.withTimeout Runs.inbound.ctx 200) apiURL
          = DoResult.response r ∧ r.StatusCode ≠ 200 ∧
        "failed to write to database: context deadline exceeded"
          = "server returned status: " ++ r.Status) ∨
      (∃ e, (Runs.ok200 (Runs.quote "5.4321")).Body = BodyRead.failed e ∧
        "failed to write to database: context deadline exceeded"
          = "failed to read response: " ++ e) ∨
      (∃ doc, (Runs.ok200 (Runs.quote "5.4321")).Body = BodyRead.data doc ∧
        unmarshalExchange Runs.envStoreFails.parseFloatExt doc = none ∧
        "failed to write to database: context deadline exceeded"
          = "failed to parse JSON: " ++ Runs.envStoreFails.jsonErrText doc) ∨
      (∃ e, Runs.envStoreFails.exec (Context.withTimeout Context.background 10) CambioUsdbrl.zero
          = some e ∧
        "failed to write to database: context deadline exceeded"
          = "failed to write to database: " ++ e ∧
        (writeData Runs.envStoreFails (Context.withTimeout Context.background 10) []
          CambioUsdbrl.zero).2 = []) :=
  stage_errors_classified Runs.envStoreFails (Context.withTimeout Runs.inbound.ctx 200)
    (Context.withTimeout Context.background 10) apiURL (Runs.ok200 (Runs.quote "5.4321")) []
    CambioUsdbrl.zero "failed to write to database: context deadline exceeded"
    (Or.inr (Or.inr ⟨rfl, rfl⟩))

/-! ## The Fetch Client: decoding and the output file -/

namespace Json

/-- The entry of a key after a successful decoding into a string map: the
value of the last member with that key (the empty string for `null`), or the
entry the map had before when there is no such member. -/
theorem decodeStringMap_lookup (k : String) :
    ∀ (ms : List (String × Value)) (m m1 : List (String × String)),
      decodeStringMap m ms = some m1 →
      (lastMember (fun x => k == x) ms = none ∧ m1.lookup k = m.lookup k) ∨
      (∃ s, lastMember (fun x => k == x) ms = some (Value.string s) ∧ m1.lookup k = some s) ∨
      (lastMember (fun x => k == x) ms = some Value.null ∧ m1.lookup k = some "") := by
  intro ms
  induction ms with
  | nil =>
    intro m m1 h
    simp [decodeStringMap] at h
    subst h
    exact Or.inl ⟨rfl, rfl⟩
  | cons kv rest ih =>
    intro m m1 h
    obtain ⟨key, v⟩ := kv
    cases v with
    | string s =>
      simp only [decodeStringMap] at h
      rcases ih _ _ h with ⟨h1, h2⟩ | ⟨t, h1, h2⟩ | ⟨h1, h2⟩
      · by_cases hk : k = key
        · subst hk
          right; left
          refine ⟨s, ?_, ?_⟩
          · simp [lastMember, h1]
          · rw [h2]; simp [List.lookup]
        · left
          refine ⟨?_, ?_⟩
          · simp [lastMember, h1, hk]
          · rw [h2]
            have : (k == key) = false := by simpa using hk
            simp [List.lookup, this]
      · right; left
        exact ⟨t, by simp [lastMember, h1], h2⟩
      · right; right
        exact ⟨by simp [lastMember, h1], h2⟩
    | null =>
      simp only [decodeStringMap] at h
      rcases ih _ _ h with ⟨h1, h2⟩ | ⟨t, h1, h2⟩ | ⟨h1, h2⟩
      · by_cases hk : k = key
        · subst hk
          right; right
          refine ⟨?_, ?_⟩
          · simp [lastMember, h1]
          · rw [h2]; simp [List.lookup]
        · left
          refine ⟨?_, ?_⟩
          · simp [lastMember, h1, hk]
          · rw [h2]
            have : (k == key) = false := by simpa using hk
            simp [List.lookup, this]
      · right; left
        exact ⟨t, by simp [lastMember, h1], h2⟩
      · right; right
        exact ⟨by simp [lastMember, h1], h2⟩
    | bool b => simp [decodeStringMap] at h
    | number n => simp [decodeStringMap] at h
    | array xs => simp [decodeStringMap] at h
    | object xs => simp [decodeStringMap] at h

/-- Decoding into a string map succeeds when every member is a string or
`null`. -/
theorem decodeStringMap_total :
    ∀ (ms : List (String × Value)) (m : List (String × String)),
      (∀ kv ∈ ms, (∃ s, kv.2 = Value.string s) ∨ kv.2 = Value.null) →
      ∃ m1, decodeStringMap m ms = some m1 := by
  intro ms
  induction ms with
  | nil => intro m _; exact ⟨m, rfl⟩
  | cons kv rest ih =>
    intro m h
    obtain ⟨key, v⟩ := kv
    have hrest : ∀ kv ∈ rest, (∃ s, kv.2 = Value.string s) ∨ kv.2 = Value.null :=
      fun kv hkv => h kv (List.mem_cons_of_mem _ hkv)
    rcases h (key, v) (List.mem_cons_self _ _) with ⟨s, hs⟩ | hn
    · simp only at hs
      subst hs
      simpa [decodeStringMap] using ih _ hrest
    · simp only at hn
      subst hn
      simpa [decodeStringMap] using ih _ hrest

/-- No member with a given key: `lastMember` finds nothing. -/
theorem lastMember_none_of_no_key (k : String) :
    ∀ (ms : List (String × Value)), (∀ kv ∈ ms, kv.1 ≠ k) →
      lastMember (fun x => k == x) ms = none := by
  intro ms
  induction ms with
  | nil => intro _; rfl
  | cons kv rest ih =>
    intro h
    have h1 := ih (fun kv hkv => h kv (List.mem_cons_of_mem _ hkv))
    have h2 : kv.1 ≠ k := h kv (List.mem_cons_self _ _)
    have h3 : ¬ (k = kv.1) := fun e => h2 e.symm
    simp [lastMember, h1, h3]

end Json

open RestServer RestClient

/-- C6 as stated fails: a body that is a JSON object without a `bid` key but
with a member that is not a string makes `json.Unmarshal` fail, and the client
returns the decode error `erro json: ...`, not the missing-field error. -/
theorem missing_bid_counterexample :
    makeGetRequest Runs.envNumberMember (Context.withTimeout Context.background 300)
        urlCotacaoServer
        = Except.ok (Json.Document.wellFormed
            (Json.Value.object [("ask", Json.Value.number "5.4331")])) ∧
      fetchAndSaveData Runs.envNumberMember (some "old")
        = ⟨some ("erro json: " ++ "json: cannot unmarshal number into Go value of type string"),
            some "old", []⟩ ∧
      (fetchAndSaveData Runs.envNumberMember (some "old")).err
        ≠ some "JSON does not contain \x27bid\x27 field" :=
  ⟨rfl, by decide, by decide⟩

/-- C6, amended: for a response body that is a JSON object with no `bid` key
and whose members are all strings or `null`, `fetchAndSaveData` returns the
missing-field error, which is not a decode error `erro json: ...`, and leaves
the output file as it was. -/
theorem missing_bid_error (env : Env) (sink : Option String) (ms : List (String × Json.Value))
    (hbody : makeGetRequest env (Context.withTimeout Context.background 300) urlCotacaoServer
      = Except.ok (Json.Document.wellFormed (Json.Value.object ms)))
    (hvals : ∀ kv ∈ ms, (∃ s, kv.2 = Json.Value.string s) ∨ kv.2 = Json.Value.null)
    (hkeys : ∀ kv ∈ ms, kv.1 ≠ "bid") :
    fetchAndSaveData env sink = ⟨some "JSON does not contain \x27bid\x27 field", sink, []⟩ ∧
      ∀ e, (fetchAndSaveData env sink).err ≠ some ("erro json: " ++ e) := by
  obtain ⟨m1, hm⟩ := Json.decodeStringMap_total ms [] hvals
  have hl : m1.lookup "bid" = none := by
    rcases Json.decodeStringMap_lookup "bid" ms [] m1 hm with ⟨_, h2⟩ | ⟨s, h1, _⟩ | ⟨h1, _⟩
    · rw [h2]; rfl
    · rw [Json.lastMember_none_of_no_key "bid" ms hkeys] at h1
      exact absurd h1 (by simp)
    · rw [Json.lastMember_none_of_no_key "bid" ms hkeys] at h1
      exact absurd h1 (by simp)
  have hres : fetchAndSaveData env sink
      = ⟨some "JSON does not contain \x27bid\x27 field", sink, []⟩ := by
    simp [fetchAndSaveData, hbody, Json.unmarshalStringMap, hm, hl]
  refine ⟨hres, ?_⟩
  intro e he
  rw [hres] at he
  simp only [Option.some.injEq] at he
  exact ne_append_of_head_ne "JSON does not contain \x27bid\x27 field" "erro json: " 'J' 'e' _ _
    rfl rfl (by decide) e he

/-- C6, amended, at a body with one string member under another key. -/
theorem missing_bid_error_witness :
    fetchAndSaveData Runs.envNoBid (some "old")
        = ⟨some "JSON does not contain \x27bid\x27 field", some "old", []⟩ ∧
      ∀ e, (fetchAndSaveData Runs.envNoBid (some "old")).err ≠ some ("erro json: " ++ e) :=
  missing_bid_error Runs.envNoBid (some "old") [("ask", Json.Value.string "5.4331")] rfl
    (by intro kv hkv; simp at hkv; subst hkv; exact Or.inl ⟨_, rfl⟩)
    (by intro kv hkv; simp at hkv; subst hkv; decide)

/-- C7: after a run of `fetchAndSaveData` that returns no error, whatever the
output file held before, it holds exactly `Dólar: ` followed by the bid of the
response: the string of the last `bid` member of the body (the empty string if
that member is `null`). -/
theorem sink_after_success (env : Env) (sink : Option String)
    (h : (fetchAndSaveData env sink).err = none) :
    ∃ ms bid,
      makeGetRequest env (Context.withTimeout Context.background 300) urlCotacaoServer
        = Except.ok (Json.Document.wellFormed (Json.Value.object ms)) ∧
      (Json.lastMember (fun x => "bid" == x) ms = some (Json.Value.string bid) ∨
        (Json.lastMember (fun x => "bid" == x) ms = some Json.Value.null ∧ bid = "")) ∧
      (fetchAndSaveData env sink).sink = some ("Dólar: " ++ bid) := by
  unfold fetchAndSaveData at h ⊢
  cases hreq : makeGetRequest env (Context.withTimeout Context.background 300) urlCotacaoServer with
  | error e => simp [hreq] at h
  | ok body =>
    simp only [hreq] at h ⊢
    cases body with
    | malformed raw => simp [Json.unmarshalStringMap] at h
    | wellFormed v =>
      cases v with
      | null => simp [Json.unmarshalStringMap, List.lookup] at h
      | bool b => simp [Json.unmarshalStringMap] at h
      | number n => simp [Json.unmarshalStringMap] at h
      | string s => simp [Json.unmarshalStringMap] at h
      | array xs => simp [Json.unmarshalStringMap] at h
      | object ms =>
        simp only [Json.unmarshalStringMap] at h ⊢
        cases hm : Json.decodeStringMap [] ms with
        | none => simp [hm] at h
        | some m1 =>
          simp only [hm] at h ⊢
          cases hl : m1.lookup "bid" with
          | none => simp [hl] at h
          | some bid =>
            simp only [hl] at h ⊢
            refine ⟨ms, bid, rfl, ?_, ?_⟩
            · rcases Json.decodeStringMap_lookup "bid" ms [] m1 hm with
                ⟨_, h2⟩ | ⟨s, h1, h2⟩ | ⟨h1, h2⟩
              · rw [hl] at h2; simp [List.lookup] at h2
              · rw [hl] at h2
                simp only [Option.some.injEq] at h2
                subst h2
                exact Or.inl h1
              · rw [hl] at h2
                simp only [Option.some.injEq] at h2
                exact Or.inr ⟨h1, h2⟩
            · unfold writeDataToFile at h ⊢
              cases hc : env.create OutputFile with
              | some e => simp [hc] at h
              | none =>
                simp only [hc] at h ⊢
                cases hw : env.write OutputFile ("Dólar: " ++ bid) with
                | failed n e => simp [hw] at h
                | done => simp [hw]

/-- C7 at a run on the body `{"bid":"5.4321"}` with an output file that held
an older, longer line. -/
theorem sink_after_success_witness :
    (fetchAndSaveData Runs.envBid (some "Dólar: 5.4298 (old)")).err = none ∧
      (fetchAndSaveData Runs.envBid (some "Dólar: 5.4298 (old)")).sink = some "Dólar: 5.4321" ∧
      ∃ ms bid,
        makeGetRequest Runs.envBid (Context.withTimeout Context.background 300) urlCotacaoServer
          = Except.ok (Json.Document.wellFormed (Json.Value.object ms)) ∧
        (Json.lastMember (fun x => "bid" == x) ms = some (Json.Value.string bid) ∨
          (Json.lastMember (fun x => "bid" == x) ms = some Json.Value.null ∧ bid = "")) ∧
        (fetchAndSaveData Runs.envBid (some "Dólar: 5.4298 (old)")).sink
          = some ("Dólar: " ++ bid) :=
  ⟨by decide, by decide,
    sink_after_success Runs.envBid (some "Dólar: 5.4298 (old)") (by decide)⟩

/-! ## The bid from the upstream document to the response -/

namespace RestServer

/-- Decoding a field other than `Bid` leaves `Bid` as it was. -/
theorem decodeField_frame (ext : String → Option Strconv.Float64) (r r1 : CambioUsdbrl)
    (f : Field) (v : Json.Value) (hf : f ≠ Field.bid) (h : decodeField ext r f v = some r1) :
    r1.Bid = r.Bid := by
  cases f <;> simp only [decodeField, Option.map_eq_some'] at h <;>
    first
      | exact absurd rfl hf
      | (obtain ⟨x, _, hx⟩ := h; rw [← hx])

/-- Decoding a member whose key is not matched to `Bid` leaves `Bid` as it
was. -/
theorem decodeMember_frame (ext : String → Option Strconv.Float64) (r r1 : CambioUsdbrl)
    (kv : String × Json.Value) (hk : isBidKey kv.1 = false)
    (h : decodeMember ext r kv = some r1) : r1.Bid = r.Bid := by
  unfold decodeMember at h
  cases hf : findField kv.1 with
  | none =>
    rw [hf] at h
    simp only [Option.some.injEq] at h
    rw [← h]
  | some f =>
    rw [hf] at h
    have hne : f ≠ Field.bid := by
      intro e
      subst e
      simp [isBidKey, hf] at hk
    exact decodeField_frame ext r r1 f kv.2 hne h

/-- Nothing is found by `lastMember` exactly when no key satisfies the
test. -/
theorem lastMember_cons_none (p : String → Bool) (kv : String × Json.Value)
    (rest : List (String × Json.Value)) (h : Json.lastMember p (kv :: rest) = none) :
    Json.lastMember p rest = none ∧ p kv.1 = false := by
  unfold Json.lastMember at h
  cases hr : Json.lastMember p rest with
  | some v => rw [hr] at h; simp at h
  | none =>
    rw [hr] at h
    cases hp : p kv.1 with
    | true => simp [hp] at h
    | false => exact ⟨rfl, rfl⟩

/-- What `lastMember` finds in a list with one more member in front. -/
theorem lastMember_cons_some (p : String → Bool) (kv : String × Json.Value)
    (rest : List (String × Json.Value)) (v : Json.Value)
    (h : Json.lastMember p (kv :: rest) = some v) :
    Json.lastMember p rest = some v ∨
      (Json.lastMember p rest = none ∧ p kv.1 = true ∧ kv.2 = v) := by
  unfold Json.lastMember at h
  cases hr : Json.lastMember p rest with
  | some w =>
    rw [hr] at h
    simp only [Option.some.injEq] at h
    left; rw [h]
  | none =>
    rw [hr] at h
    cases hp : p kv.1 with
    | true =>
      simp [hp] at h
      exact Or.inr ⟨rfl, rfl, h⟩
    | false => simp [hp] at h

/-- Decoding members none of which is matched to `Bid` leaves `Bid` as it
was. -/
theorem decodeObject_frame (ext : String → Option Strconv.Float64) :
    ∀ (ms : List (String × Json.Value)) (r r1 : CambioUsdbrl),
      Json.lastMember isBidKey ms = none → decodeObject ext r ms = some r1 → r1.Bid = r.Bid := by
  intro ms
  induction ms with
  | nil =>
    intro r r1 _ h
    simp only [decodeObject, Option.some.injEq] at h
    rw [h]
  | cons kv rest ih =>
    intro r r1 hl h
    obtain ⟨hl1, hk⟩ := lastMember_cons_none isBidKey kv rest hl
    unfold decodeObject at h
    cases hm : decodeMember ext r kv with
    | none => rw [hm] at h; simp at h
    | some r2 =>
      rw [hm] at h
      simp only at h
      rw [ih r2 r1 hl1 h, decodeMember_frame ext r r2 kv hk hm]

/-- The decoder on a plain decimal literal bound to a `float64` field: when it
does not fail it sets the field to the nearest binary64. -/
theorem quotedFloat_decimal (ext : String → Option Strconv.Float64) (s : String)
    (cur f : Strconv.Float64) (hd : (Strconv.readDecimal s.toList).isSome = true)
    (h : Json.quotedFloat ext (Json.Value.string s) cur = some f) :
    Strconv.decimalToFloat64 s.toList = some f := by
  obtain ⟨d, hd1⟩ := Option.isSome_iff_exists.mp hd
  simp only [Json.quotedFloat, Json.literalStoreFloat] at h
  cases hs : s.toList with
  | nil => rw [hs] at hd1; simp [Strconv.readDecimal] at hd1
  | cons c cs =>
    rw [hs] at h
    simp only at h
    by_cases hn : c = 'n'
    · simp only [hn, if_true] at h
      by_cases hnull : s = "null"
      · subst hnull
        have hnone : Strconv.readDecimal "null".toList = none := by decide
        rw [hnone] at hd1
        simp at hd1
      · simp [hnull] at h
    · simp only [hn, if_false] at h
      by_cases hc : c = '-' ∨ Strconv.isDigit c = true
      · simp only [hc, if_true] at h
        have hp : Strconv.parseFloat ext s = Strconv.decimalToFloat64 s.toList := by
          unfold Strconv.parseFloat
          rw [hd1]
        rw [hp] at h
        rw [← hs]
        cases hv : Strconv.decimalToFloat64 s.toList with
        | none => rw [hv] at h; simp at h
        | some g => rw [hv] at h; simpa using h
      · simp [hc] at h

/-- After a successful decoding of the members of the `USDBRL` object, `Bid`
is the nearest binary64 to the plain decimal literal held by the last member
matched to it. -/
theorem decodeObject_bid (ext : String → Option Strconv.Float64) (s : String)
    (hd : (Strconv.readDecimal s.toList).isSome = true) :
    ∀ (ms : List (String × Json.Value)) (r r1 : CambioUsdbrl),
      Json.lastMember isBidKey ms = some (Json.Value.string s) →
      decodeObject ext r ms = some r1 →
      Strconv.decimalToFloat64 s.toList = some r1.Bid := by
  intro ms
  induction ms with
  | nil => intro r r1 hl _; simp [Json.lastMember] at hl
  | cons kv rest ih =>
    intro r r1 hl h
    unfold decodeObject at h
    cases hm : decodeMember ext r kv with
    | none => rw [hm] at h; simp at h
    | some r2 =>
      rw [hm] at h
      simp only at h
      rcases lastMember_cons_some isBidKey kv rest _ hl with h1 | ⟨h1, hk, hv⟩
      · exact ih r2 r1 h1 h
      · rw [decodeObject_frame ext rest r2 r1 h1 h]
        have hf : findField kv.1 = some Field.bid := by simpa [isBidKey] using hk
        unfold decodeMember at hm
        rw [hf] at hm
        simp only [decodeField, hv, Option.map_eq_some'] at hm
        obtain ⟨x, hx, hr2⟩ := hm
        rw [← hr2]
        exact quotedFloat_decimal ext s r.Bid x hd hx

/-- Decoding top-level members none of which is matched to `USDBRL` leaves
the value as it was. -/
theorem decodeTop_frame (ext : String → Option Strconv.Float64) :
    ∀ (tops : List (String × Json.Value)) (ex ex1 : Exchange),
      Json.lastMember isUsdbrlKey tops = none → decodeTop ext ex tops = some ex1 → ex1 = ex := by
  intro tops
  induction tops with
  | nil =>
    intro ex ex1 _ h
    simp only [decodeTop, Option.some.injEq] at h
    rw [h]
  | cons kv rest ih =>
    intro ex ex1 hl h
    obtain ⟨hl1, hk⟩ := lastMember_cons_none isUsdbrlKey kv rest hl
    unfold decodeTop at h
    simp only [hk] at h
    exact ih ex ex1 hl1 h

/-- After a successful decoding of the top-level object, the record is the
result of decoding the members of the last `USDBRL` object, into whatever the
members before it had left. -/
theorem decodeTop_last (ext : String → Option Strconv.Float64) (ms : List (String × Json.Value)) :
    ∀ (tops : List (String × Json.Value)) (ex ex1 : Exchange),
      Json.lastMember isUsdbrlKey tops = some (Json.Value.object ms) →
      decodeTop ext ex tops = some ex1 →
      ∃ r0, decodeObject ext r0 ms = some ex1.USDBRL := by
  intro tops
  induction tops with
  | nil => intro ex ex1 hl _; simp [Json.lastMember] at hl
  | cons kv rest ih =>
    intro ex ex1 hl h
    rcases lastMember_cons_some isUsdbrlKey kv rest _ hl with h1 | ⟨h1, hk, hv⟩
    · unfold decodeTop at h
      by_cases hk : isUsdbrlKey kv.1 = true
      · simp only [hk, if_true] at h
        cases hv : kv.2 with
        | object ms2 =>
          rw [hv] at h
          simp only at h
          cases ho : decodeObject ext ex.USDBRL ms2 with
          | none => rw [ho] at h; simp at h
          | some r2 =>
            rw [ho] at h
            exact ih _ ex1 h1 h
        | null => rw [hv] at h; exact ih _ ex1 h1 h
        | bool b => rw [hv] at h; simp at h
        | number n => rw [hv] at h; simp at h
        | string t => rw [hv] at h; simp at h
        | array xs => rw [hv] at h; simp at h
      · simp only [hk] at h
        exact ih _ ex1 h1 h
    · unfold decodeTop at h
      simp only [hk, if_true, hv] at h
      cases ho : decodeObject ext ex.USDBRL ms with
      | none => rw [ho] at h; simp at h
      | some r2 =>
        rw [ho] at h
        simp only at h
        have := decodeTop_frame ext rest _ ex1 h1 h
        rw [this]
        exact ⟨ex.USDBRL, ho⟩

end RestServer

open RestServer RestClient

/-- C1 as stated fails: for the upstream bid `5.40`, with the call, the parse
and the insert all succeeding, the handler answers 200 with the body
`{"bid":"5.4"}`; the bid field is not the string `5.40`. -/
theorem bid_roundtrip_counterexample :
    Json.lastMember isBidKey (Runs.quoteMembers "5.40") = some (Json.Value.string "5.40") ∧
      (Strconv.readDecimal "5.40".toList).isSome = true ∧
      (handler Runs.envTrailingZero Runs.inbound []).response
        = ⟨200, [("Content-Type", "application/json")], "\x7b\"bid\":\"5.4\"\x7d\n"⟩ ∧
      (handler Runs.envTrailingZero Runs.inbound []).db.length = 1 ∧
      (handler Runs.envTrailingZero Runs.inbound []).response.body
        ≠ "\x7b\"bid\":\"" ++ "5.40" ++ "\"\x7d\n" :=
  ⟨rfl, by decide, by decide, by decide, by decide⟩

/-- C1, amended: for an upstream body whose `USDBRL.bid` is a string holding
a plain decimal literal `s`, when the call, the parse and the insert all
succeed, the handler answers 200 with Content-Type JSON and the body
`{"bid":"c"}`, where `c` is the canonical rendering of `s`: the shortest
decimal that reads back as the `float64` nearest to `s`.  One row, the decoded
record, is inserted. -/
theorem bid_is_canonical (env : Env) (r : Request) (db : List CambioUsdbrl)
    (resp : HttpResponse) (exchange : Exchange) (tops ms : List (String × Json.Value))
    (s : String)
    (hcall : doAPICall env (Context.withTimeout r.ctx 200) apiURL = Except.ok resp)
    (hbody : resp.Body = BodyRead.data (Json.Document.wellFormed (Json.Value.object tops)))
    (husd : Json.lastMember isUsdbrlKey tops = some (Json.Value.object ms))
    (hbid : Json.lastMember isBidKey ms = some (Json.Value.string s))
    (hdec : (Strconv.readDecimal s.toList).isSome = true)
    (hparse : parseAPIResponse env resp = Except.ok exchange)
    (hins : (writeData env (Context.withTimeout Context.background 10) db exchange.USDBRL).1
      = none) :
    ∃ c, Json.canonicalDecimal s = some c ∧
      (handler env r db).response
        = ⟨200, [("Content-Type", "application/json")], "\x7b\"bid\":\"" ++ c ++ "\"\x7d\n"⟩ ∧
      (handler env r db).db = db ++ [exchange.USDBRL] := by
  have hu : unmarshalExchange env.parseFloatExt
      (Json.Document.wellFormed (Json.Value.object tops)) = some exchange := by
    unfold parseAPIResponse at hparse
    rw [hbody] at hparse
    simp only at hparse
    cases hx : unmarshalExchange env.parseFloatExt
        (Json.Document.wellFormed (Json.Value.object tops)) with
    | none => rw [hx] at hparse; simp at hparse
    | some ex =>
      rw [hx] at hparse
      simp only [Except.ok.injEq] at hparse
      rw [hparse]
  simp only [unmarshalExchange] at hu
  obtain ⟨r0, hr0⟩ := decodeTop_last env.parseFloatExt ms tops _ exchange husd hu
  have hf := decodeObject_bid env.parseFloatExt s hdec ms r0 _ hbid hr0
  obtain ⟨neg, m, e, hfin⟩ : ∃ neg m e, exchange.USDBRL.Bid = Strconv.Float64.finite neg m e := by
    unfold Strconv.decimalToFloat64 at hf
    cases hrd : Strconv.readDecimal s.toList with
    | none => rw [hrd] at hf; simp at hf
    | some d =>
      obtain ⟨neg, dg, k⟩ := d
      rw [hrd] at hf
      simp only at hf
      cases hro : Strconv.roundToBinary64 dg (10 ^ k) with
      | none => rw [hro] at hf; simp at hf
      | some me =>
        obtain ⟨m, e⟩ := me
        rw [hro] at hf
        simp only [Option.some.injEq] at hf
        exact ⟨neg, m, e, hf.symm⟩
  obtain ⟨c, hc⟩ : ∃ c, Json.encodeFloat64 exchange.USDBRL.Bid = some c := by
    rw [hfin]
    exact ⟨_, rfl⟩
  refine ⟨c, ?_, ?_⟩
  · unfold Json.canonicalDecimal
    rw [hf]
    exact hc
  · rcases writeData_cases env (Context.withTimeout Context.background 10) db exchange.USDBRL
      with ⟨hw, _, _⟩ | ⟨err, hw⟩
    · simp [handler, hcall, hparse, hw, encodeResponse, hc]
    · rw [hw] at hins
      simp at hins

/-- C1, amended, at the upstream bid `5.4321`, which is its own canonical
rendering: the body is `{"bid":"5.4321"}`. -/
theorem bid_is_canonical_witness :
    Json.canonicalDecimal "5.4321" = some "5.4321" ∧
      (handler Runs.envQuote Runs.inbound []).response.body = "\x7b\"bid\":\"5.4321\"\x7d\n" ∧
      ∃ c, Json.canonicalDecimal "5.4321" = some c ∧
        (handler Runs.envQuote Runs.inbound []).response
          = ⟨200, [("Content-Type", "application/json")], "\x7b\"bid\":\"" ++ c ++ "\"\x7d\n"⟩ ∧
        (handler Runs.envQuote Runs.inbound []).db
          = [] ++ [Runs.quoteRecord] :=
  ⟨by decide, by decide,
    bid_is_canonical Runs.envQuote Runs.inbound [] (Runs.ok200 (Runs.quote "5.4321"))
      ⟨Runs.quoteRecord⟩
      [("USDBRL", Json.Value.object (Runs.quoteMembers "5.4321"))] (Runs.quoteMembers "5.4321")
      "5.4321" rfl rfl rfl rfl (by decide) rfl rfl⟩
